import Mathlib

/-
Verification of the target-aggregation node of the recon-pipeline repository
(`pipeline/recon/web/targets.py`, class `GatherWebTargets`).

The embedding models the body of `GatherWebTargets.run`:

    targets = set()
    for target, protocol_dict in ip_dict.items():
        for protocol, ports in protocol_dict.items():
            for port in ports:
                if protocol == "udp":
                    continue
                if port == "80":
                    targets.add(target)
                elif port in web_ports:
                    targets.add(f"{target}:{port}")
    for amass_result in self.input().get("amass-output").values():
        with amass_result.open() as f:
            for target in f:
                targets.add(target.strip())
    ... write each member of `targets` as one line ...

Python dictionaries iterate as association lists and Python sets of strings
are finite string sets, so `ip_dict` becomes a list of
(host, list of (protocol, list of port)) and the accumulating `targets` set a
`Finset String`.  `web_ports` is the configuration set imported from
`pipeline/recon/config.py`; it is passed explicitly as a parameter.
-/

namespace ReconPipeline

/-- Whitespace characters stripped by Python `str.strip()` (ASCII range). -/
def isPyWhitespace (c : Char) : Bool :=
  c == ' ' || c == '\t' || c == '\n' || c == '\r' || c == '\x0b' || c == '\x0c'

/-- Python `str.strip()`: remove leading and trailing whitespace. -/
def pyStrip (s : String) : String :=
  ⟨((s.data.dropWhile isPyWhitespace).reverse.dropWhile isPyWhitespace).reverse⟩

/-- The per-host `{protocol: set(ports)}` mapping of the pickled masscan result. -/
abbrev ProtocolDict := List (String × List String)

/-- The pickled masscan result: `{ip_address: {protocol: set(ports)}}`. -/
abbrev IpDict := List (String × ProtocolDict)

/-- Body of the innermost loop of `GatherWebTargets.run`: one
(target, protocol, port) triple is examined and at most one entry added. -/
def scanStep (web_ports : Finset String) (targets : Finset String)
    (target protocol port : String) : Finset String :=
  if protocol = "udp" then targets
  else if port = "80" then insert target targets
  else if port ∈ web_ports then insert (target ++ ":" ++ port) targets
  else targets

/-- The loop `for port in ports` for a fixed host and protocol. -/
def addPorts (web_ports : Finset String) (target protocol : String)
    (ports : List String) (targets : Finset String) : Finset String :=
  ports.foldl (fun acc port => scanStep web_ports acc target protocol port) targets

/-- The loop `for protocol, ports in protocol_dict.items()` for a fixed host. -/
def addProtocolDict (web_ports : Finset String) (target : String)
    (pd : ProtocolDict) (targets : Finset String) : Finset String :=
  pd.foldl (fun acc pp => addPorts web_ports target pp.1 pp.2 acc) targets

/-- The loop `for target, protocol_dict in ip_dict.items()`. -/
def addScan (web_ports : Finset String) (ip_dict : IpDict)
    (targets : Finset String) : Finset String :=
  ip_dict.foldl (fun acc tp => addProtocolDict web_ports tp.1 tp.2 acc) targets

/-- The amass loop: `targets.add(target.strip())` for every line of every shard
(`subdomains` is the concatenation of the lines of all amass output shards). -/
def addSubdomains (subdomains : List String) (targets : Finset String) : Finset String :=
  subdomains.foldl (fun acc line => insert (pyStrip line) acc) targets

/-- The whole aggregation of `GatherWebTargets.run`: start from the empty set,
run the scan loop, then the subdomain loop. -/
def gatherWebTargets (web_ports : Finset String) (ip_dict : IpDict)
    (subdomains : List String) : Finset String :=
  addSubdomains subdomains (addScan web_ports ip_dict ∅)

/-- The lines of the written `webtargets.txt`: every member of the set exactly
once (the Python set iterates in an unspecified order; the model fixes the
sorted order, which the spec explicitly allows). -/
def outputLines (web_ports : Finset String) (ip_dict : IpDict)
    (subdomains : List String) : List String :=
  (gatherWebTargets web_ports ip_dict subdomains).sort (· ≤ ·)

/-- What a single (target, protocol, port) triple of the scan loop emits:
nothing for `udp`, the bare host for port "80", `target:port` for a
policy port, nothing otherwise. -/
def tripleEmits (web_ports : Finset String) (target protocol port s : String) : Prop :=
  protocol ≠ "udp" ∧
    ((port = "80" ∧ s = target) ∨
     (port ≠ "80" ∧ port ∈ web_ports ∧ s = target ++ ":" ++ port))

instance (web_ports : Finset String) (target protocol port s : String) :
    Decidable (tripleEmits web_ports target protocol port s) := by
  unfold tripleEmits; infer_instance

/-- The scan result with every `udp` protocol entry removed. -/
def removeUdp (ip_dict : IpDict) : IpDict :=
  ip_dict.map (fun tp => (tp.1, tp.2.filter (fun pp => pp.1 != "udp")))

/-- Traceability exactly as the spec invariant words it: an entry comes from a
host with TCP port 80 open, from a host with an open TCP port in the policy
set, or from a subdomain line. -/
def traceableTcp (web_ports : Finset String) (ip_dict : IpDict)
    (subdomains : List String) (s : String) : Prop :=
  (∃ tp ∈ ip_dict, ∃ pp ∈ tp.2, pp.1 = "tcp" ∧ "80" ∈ pp.2 ∧ s = tp.1) ∨
  (∃ tp ∈ ip_dict, ∃ pp ∈ tp.2, pp.1 = "tcp" ∧
    ∃ p ∈ pp.2, p ∈ web_ports ∧ s = tp.1 ++ ":" ++ p) ∨
  (∃ l ∈ subdomains, s = pyStrip l)

instance (web_ports : Finset String) (ip_dict : IpDict)
    (subdomains : List String) (s : String) :
    Decidable (traceableTcp web_ports ip_dict subdomains s) := by
  unfold traceableTcp; infer_instance

/-- Traceability as the code realizes it: the scan-side sources are hosts with
a non-UDP protocol (the code only skips the literal `udp` key). -/
def traceableNonUdp (web_ports : Finset String) (ip_dict : IpDict)
    (subdomains : List String) (s : String) : Prop :=
  (∃ tp ∈ ip_dict, ∃ pp ∈ tp.2, pp.1 ≠ "udp" ∧ "80" ∈ pp.2 ∧ s = tp.1) ∨
  (∃ tp ∈ ip_dict, ∃ pp ∈ tp.2, pp.1 ≠ "udp" ∧
    ∃ p ∈ pp.2, p ∈ web_ports ∧ s = tp.1 ++ ":" ++ p) ∨
  (∃ l ∈ subdomains, s = pyStrip l)

instance (web_ports : Finset String) (ip_dict : IpDict)
    (subdomains : List String) (s : String) :
    Decidable (traceableNonUdp web_ports ip_dict subdomains s) := by
  unfold traceableNonUdp; infer_instance

/-- The same aggregation with the two upstream sources processed in the other
order: subdomain lines first, scan loop second. -/
def gatherWebTargetsSwapped (web_ports : Finset String) (ip_dict : IpDict)
    (subdomains : List String) : Finset String :=
  addScan web_ports ip_dict (addSubdomains subdomains ∅)

/-- Membership after one `scanStep`. -/
lemma mem_scanStep (web_ports acc : Finset String) (t proto p s : String) :
    s ∈ scanStep web_ports acc t proto p ↔
      s ∈ acc ∨ tripleEmits web_ports t proto p s := by
  unfold scanStep tripleEmits
  split_ifs with h1 h2 h3
  · simp [h1]
  · simp only [Finset.mem_insert, h1, h2]
    simp
    tauto
  · simp only [Finset.mem_insert, h1, h2, h3]
    simp [h2, h3]
    tauto
  · simp [h1, h2, h3]

/-- Membership after the port loop. -/
lemma mem_addPorts (web_ports : Finset String) (t proto : String)
    (ports : List String) (acc : Finset String) (s : String) :
    s ∈ addPorts web_ports t proto ports acc ↔
      s ∈ acc ∨ ∃ p ∈ ports, tripleEmits web_ports t proto p s := by
  induction ports generalizing acc with
  | nil => simp [addPorts]
  | cons hd tl ih =>
      simp only [addPorts, List.foldl_cons] at *
      rw [ih, mem_scanStep]
      simp [List.mem_cons]
      tauto

/-- Membership after the protocol loop. -/
lemma mem_addProtocolDict (web_ports : Finset String) (t : String)
    (pd : ProtocolDict) (acc : Finset String) (s : String) :
    s ∈ addProtocolDict web_ports t pd acc ↔
      s ∈ acc ∨ ∃ pp ∈ pd, ∃ p ∈ pp.2, tripleEmits web_ports t pp.1 p s := by
  induction pd generalizing acc with
  | nil => simp [addProtocolDict]
  | cons hd tl ih =>
      simp only [addProtocolDict, List.foldl_cons] at *
      rw [ih, mem_addPorts]
      simp only [List.mem_cons, or_and_right, exists_or, exists_eq_left]
      aesop

/-- Membership after the scan loop. -/
lemma mem_addScan (web_ports : Finset String) (ip_dict : IpDict)
    (acc : Finset String) (s : String) :
    s ∈ addScan web_ports ip_dict acc ↔
      s ∈ acc ∨ ∃ tp ∈ ip_dict, ∃ pp ∈ tp.2, ∃ p ∈ pp.2,
        tripleEmits web_ports tp.1 pp.1 p s := by
  induction ip_dict generalizing acc with
  | nil => simp [addScan]
  | cons hd tl ih =>
      simp only [addScan, List.foldl_cons] at *
      rw [ih, mem_addProtocolDict]
      simp only [List.mem_cons, or_and_right, exists_or, exists_eq_left]
      aesop

/-- Membership after the subdomain loop. -/
lemma mem_addSubdomains (subdomains : List String) (acc : Finset String) (s : String) :
    s ∈ addSubdomains subdomains acc ↔
      s ∈ acc ∨ ∃ l ∈ subdomains, s = pyStrip l := by
  induction subdomains generalizing acc with
  | nil => simp [addSubdomains]
  | cons hd tl ih =>
      simp only [addSubdomains, List.foldl_cons] at *
      rw [ih]
      simp [List.mem_cons]
      tauto

/-- Full characterization of the aggregated set. -/
lemma mem_gatherWebTargets (web_ports : Finset String) (ip_dict : IpDict)
    (subdomains : List String) (s : String) :
    s ∈ gatherWebTargets web_ports ip_dict subdomains ↔
      (∃ tp ∈ ip_dict, ∃ pp ∈ tp.2, ∃ p ∈ pp.2,
        tripleEmits web_ports tp.1 pp.1 p s) ∨
      (∃ l ∈ subdomains, s = pyStrip l) := by
  unfold gatherWebTargets
  rw [mem_addSubdomains, mem_addScan]
  simp

/-- Filtering the `udp` protocol entries out of the scan result does not change
which entries the scan loop can emit. -/
lemma scanExists_removeUdp (web_ports : Finset String) (ip_dict : IpDict) (s : String) :
    (∃ tp ∈ removeUdp ip_dict, ∃ pp ∈ tp.2, ∃ p ∈ pp.2,
      tripleEmits web_ports tp.1 pp.1 p s) ↔
    (∃ tp ∈ ip_dict, ∃ pp ∈ tp.2, ∃ p ∈ pp.2,
      tripleEmits web_ports tp.1 pp.1 p s) := by
  constructor
  · rintro ⟨tp', htp', pp, hpp, p, hp, he⟩
    rcases List.mem_map.mp htp' with ⟨tp, htp, rfl⟩
    exact ⟨tp, htp, pp, (List.mem_filter.mp hpp).1, p, hp, he⟩
  · rintro ⟨tp, htp, pp, hpp, p, hp, he⟩
    refine ⟨(tp.1, tp.2.filter (fun pp => pp.1 != "udp")),
      List.mem_map.mpr ⟨tp, htp, rfl⟩, pp, ?_, p, hp, he⟩
    exact List.mem_filter.mpr ⟨hpp, by simpa [bne_iff_ne] using he.1⟩

/-- C1 (counterexample): on the claimed scenario input — scan result
`{"10.0.0.1": {"tcp": {"80","8080"}, "udp": {"53"}}}`, policy `{"8080"}`,
subdomain lines `["sub.example.com", " ", "sub.example.com"]` — the aggregate
does not produce the three-element set the claim states: the whitespace-only
line is stripped to the empty string and added, so a fourth entry appears. -/
theorem claim1_scenario_counterexample :
    gatherWebTargets {"8080"}
      [("10.0.0.1", [("tcp", ["80", "8080"]), ("udp", ["53"])])]
      ["sub.example.com", " ", "sub.example.com"] ≠
      ({"10.0.0.1", "10.0.0.1:8080", "sub.example.com"} : Finset String) := by
  decide

/-- C1 (amended): on the scenario input the aggregate produces exactly the
four-element set `{"10.0.0.1", "10.0.0.1:8080", "sub.example.com", ""}`: the
three claimed entries plus the empty entry contributed by the whitespace-only
subdomain line. -/
theorem claim1_scenario_amended :
    gatherWebTargets {"8080"}
      [("10.0.0.1", [("tcp", ["80", "8080"]), ("udp", ["53"])])]
      ["sub.example.com", " ", "sub.example.com"] =
      ({"10.0.0.1", "10.0.0.1:8080", "sub.example.com", ""} : Finset String) := by
  decide

/-- C2 (counterexample): a whitespace-only subdomain line is not discarded:
with empty scan result and policy, the single line `" "` makes the output the
singleton `{""}` rather than the empty set the claim requires. -/
theorem claim2_whitespace_counterexample :
    "" ∈ gatherWebTargets (∅ : Finset String) [] [" "] ∧
      gatherWebTargets (∅ : Finset String) [] [" "] ≠ (∅ : Finset String) := by
  decide

/-- C2 (amended): an empty or whitespace-only subdomain line contributes the
empty-string TargetEntry to the output set (all such lines collapse to that
single entry); it is not silently discarded. -/
theorem claim2_whitespace_amended (web_ports : Finset String) (ip_dict : IpDict)
    (subdomains : List String) (l : String)
    (hl : l ∈ subdomains) (hws : pyStrip l = "") :
    "" ∈ gatherWebTargets web_ports ip_dict subdomains := by
  rw [mem_gatherWebTargets]
  exact Or.inr ⟨l, hl, hws.symm⟩

/-- Witness for C2 (amended) at the concrete line `" "`. -/
theorem claim2_whitespace_amended_witness :
    "" ∈ gatherWebTargets (∅ : Finset String) [] [" "] :=
  claim2_whitespace_amended ∅ [] [" "] " " (by decide) (by decide)

/-- C3: UDP triples never contribute: removing every `udp` protocol entry from
the scan result leaves the aggregate unchanged, for every input; and on the
spec's scenario (UDP port 80 only, empty policy) the output is empty. -/
theorem claim3_udp_excluded :
    (∀ (web_ports : Finset String) (ip_dict : IpDict) (subdomains : List String),
      gatherWebTargets web_ports ip_dict subdomains =
        gatherWebTargets web_ports (removeUdp ip_dict) subdomains) ∧
    gatherWebTargets (∅ : Finset String)
      [("10.0.0.2", [("udp", ["80"])])] [] = (∅ : Finset String) := by
  constructor
  · intro web_ports ip_dict subdomains
    ext s
    rw [mem_gatherWebTargets, mem_gatherWebTargets, scanExists_removeUdp]
  · decide

/-- C4: a host with TCP port "80" open yields the bare host entry in the
output; the (host, protocol, "80") triple never emits `host:80` — even when
"80" is in the policy set — and emits nothing besides the bare host. -/
theorem claim4_port80_bare (web_ports : Finset String) (ip_dict : IpDict)
    (subdomains : List String) (host proto : String) (pd : ProtocolDict)
    (ports : List String)
    (hhost : (host, pd) ∈ ip_dict) (hpd : (proto, ports) ∈ pd)
    (hproto : proto ≠ "udp") (h80 : "80" ∈ ports) :
    host ∈ gatherWebTargets web_ports ip_dict subdomains ∧
      ¬ tripleEmits web_ports host proto "80" (host ++ ":80") ∧
      ∀ s, tripleEmits web_ports host proto "80" s → s = host := by
  have honly : ∀ s, tripleEmits web_ports host proto "80" s → s = host := by
    rintro s ⟨-, ⟨-, hs⟩ | ⟨hne, -, -⟩⟩
    · exact hs
    · exact absurd rfl hne
  refine ⟨?_, ?_, honly⟩
  · rw [mem_gatherWebTargets]
    exact Or.inl ⟨(host, pd), hhost, (proto, ports), hpd, "80", h80,
      hproto, Or.inl ⟨rfl, rfl⟩⟩
  · intro hemit
    have := honly _ hemit
    have hlen := congrArg String.length this
    simp [String.length_append] at hlen
    exact absurd hlen (by decide)

/-- Witness for C4 at a concrete host with TCP port 80 open and "80" itself
in the policy set. -/
theorem claim4_port80_bare_witness :
    "10.0.0.1" ∈ gatherWebTargets {"80"} [("10.0.0.1", [("tcp", ["80"])])] [] ∧
      ¬ tripleEmits {"80"} "10.0.0.1" "tcp" "80" ("10.0.0.1" ++ ":80") ∧
      ∀ s, tripleEmits {"80"} "10.0.0.1" "tcp" "80" s → s = "10.0.0.1" :=
  claim4_port80_bare {"80"} [("10.0.0.1", [("tcp", ["80"])])] []
    "10.0.0.1" "tcp" [("tcp", ["80"])] ["80"]
    (by decide) (by decide) (by decide) (by decide)

/-- C5: for a non-UDP triple with port P ≠ "80", the triple emits `host:P`
exactly when P is in the policy set; when it is, `host:P` is in the output,
and a host qualifying both via port 80 and via a policy port contributes both
the bare entry and the composite entry. -/
theorem claim5_policy_port (web_ports : Finset String) (ip_dict : IpDict)
    (subdomains : List String) (host proto : String) (pd : ProtocolDict)
    (ports : List String) (P : String)
    (hhost : (host, pd) ∈ ip_dict) (hpd : (proto, ports) ∈ pd)
    (hproto : proto ≠ "udp") (hP : P ∈ ports) (hP80 : P ≠ "80") :
    (tripleEmits web_ports host proto P (host ++ ":" ++ P) ↔ P ∈ web_ports) ∧
    (P ∈ web_ports →
      host ++ ":" ++ P ∈ gatherWebTargets web_ports ip_dict subdomains) ∧
    ("80" ∈ ports → P ∈ web_ports →
      host ∈ gatherWebTargets web_ports ip_dict subdomains ∧
      host ++ ":" ++ P ∈ gatherWebTargets web_ports ip_dict subdomains) := by
  have hcomp : P ∈ web_ports →
      host ++ ":" ++ P ∈ gatherWebTargets web_ports ip_dict subdomains := by
    intro hw
    rw [mem_gatherWebTargets]
    exact Or.inl ⟨(host, pd), hhost, (proto, ports), hpd, P, hP,
      hproto, Or.inr ⟨hP80, hw, rfl⟩⟩
  refine ⟨?_, hcomp, ?_⟩
  · constructor
    · rintro ⟨-, ⟨h80, -⟩ | ⟨-, hw, -⟩⟩
      · exact absurd h80 hP80
      · exact hw
    · intro hw
      exact ⟨hproto, Or.inr ⟨hP80, hw, rfl⟩⟩
  · intro h80 hw
    refine ⟨?_, hcomp hw⟩
    rw [mem_gatherWebTargets]
    exact Or.inl ⟨(host, pd), hhost, (proto, ports), hpd, "80", h80,
      hproto, Or.inl ⟨rfl, rfl⟩⟩

/-- Witness for C5 at a host with TCP ports 80 and 8080 open and policy
`{"8080"}`. -/
theorem claim5_policy_port_witness :
    (tripleEmits {"8080"} "10.0.0.1" "tcp" "8080" ("10.0.0.1" ++ ":" ++ "8080") ↔
      "8080" ∈ ({"8080"} : Finset String)) ∧
    ("8080" ∈ ({"8080"} : Finset String) →
      "10.0.0.1" ++ ":" ++ "8080" ∈ gatherWebTargets {"8080"}
        [("10.0.0.1", [("tcp", ["80", "8080"])])] []) ∧
    ("80" ∈ ["80", "8080"] → "8080" ∈ ({"8080"} : Finset String) →
      "10.0.0.1" ∈ gatherWebTargets {"8080"}
        [("10.0.0.1", [("tcp", ["80", "8080"])])] [] ∧
      "10.0.0.1" ++ ":" ++ "8080" ∈ gatherWebTargets {"8080"}
        [("10.0.0.1", [("tcp", ["80", "8080"])])] []) :=
  claim5_policy_port {"8080"} [("10.0.0.1", [("tcp", ["80", "8080"])])] []
    "10.0.0.1" "tcp" [("tcp", ["80", "8080"])] ["80", "8080"] "8080"
    (by decide) (by decide) (by decide) (by decide) (by decide)

/-- C6: the written output never contains duplicate lines, and any entry of
the aggregated set — however many times its sources occur across the two
inputs — appears exactly once among the output lines. -/
theorem claim6_dedup (web_ports : Finset String) (ip_dict : IpDict)
    (subdomains : List String) (s : String)
    (hs : s ∈ gatherWebTargets web_ports ip_dict subdomains) :
    (outputLines web_ports ip_dict subdomains).Nodup ∧
      (outputLines web_ports ip_dict subdomains).count s = 1 := by
  have hnd : (outputLines web_ports ip_dict subdomains).Nodup :=
    Finset.sort_nodup _ _
  have hmem : s ∈ outputLines web_ports ip_dict subdomains :=
    (Finset.mem_sort _).mpr hs
  exact ⟨hnd, List.count_eq_one_of_mem hnd hmem⟩

/-- Witness for C6: the scan result and the subdomain lines both produce
`"sub.example.com"` (the line even twice), yet it is written exactly once. -/
theorem claim6_dedup_witness :
    (outputLines (∅ : Finset String) [("sub.example.com", [("tcp", ["80"])])]
      ["sub.example.com", "sub.example.com"]).Nodup ∧
      (outputLines (∅ : Finset String) [("sub.example.com", [("tcp", ["80"])])]
        ["sub.example.com", "sub.example.com"]).count "sub.example.com" = 1 :=
  claim6_dedup ∅ [("sub.example.com", [("tcp", ["80"])])]
    ["sub.example.com", "sub.example.com"] "sub.example.com" (by decide)

/-- C7 (counterexample): an entry can fail the claimed TCP-only traceability:
a host whose port 80 is open under protocol "sctp" lands in the output, but is
traceable neither to a TCP port nor to a subdomain line. -/
theorem claim7_traceability_counterexample :
    "h" ∈ gatherWebTargets (∅ : Finset String) [("h", [("sctp", ["80"])])] [] ∧
      ¬ traceableTcp (∅ : Finset String) [("h", [("sctp", ["80"])])] [] "h" := by
  decide

/-- C7 (amended): every entry of the output is traceable to a host with port
80 open under some non-UDP protocol, to a host with an open non-UDP port that
is in the policy set, or to a subdomain line; UDP triples never contribute. -/
theorem claim7_traceability_amended (web_ports : Finset String)
    (ip_dict : IpDict) (subdomains : List String) (s : String)
    (hs : s ∈ gatherWebTargets web_ports ip_dict subdomains) :
    traceableNonUdp web_ports ip_dict subdomains s := by
  rw [mem_gatherWebTargets] at hs
  rcases hs with ⟨tp, htp, pp, hpp, p, hp, hne, hcase⟩ | hsub
  · rcases hcase with ⟨h80, rfl⟩ | ⟨-, hPwp, rfl⟩
    · exact Or.inl ⟨tp, htp, pp, hpp, hne, h80 ▸ hp, rfl⟩
    · exact Or.inr (Or.inl ⟨tp, htp, pp, hpp, hne, p, hp, hPwp, rfl⟩)
  · exact Or.inr (Or.inr hsub)

/-- Witness for C7 (amended) at a concrete aggregated entry. -/
theorem claim7_traceability_amended_witness :
    traceableNonUdp {"8080"} [("10.0.0.1", [("tcp", ["80", "8080"])])]
      ["sub.example.com"] "10.0.0.1:8080" :=
  claim7_traceability_amended {"8080"}
    [("10.0.0.1", [("tcp", ["80", "8080"])])] ["sub.example.com"]
    "10.0.0.1:8080" (by decide)

/-- C8: the merge is commutative over its two upstream sources: running the
scan loop first and the subdomain loop second produces the same set as the
opposite order, for every input. -/
theorem claim8_commutative (web_ports : Finset String) (ip_dict : IpDict)
    (subdomains : List String) :
    gatherWebTargets web_ports ip_dict subdomains =
      gatherWebTargetsSwapped web_ports ip_dict subdomains := by
  ext s
  rw [mem_gatherWebTargets]
  unfold gatherWebTargetsSwapped
  rw [mem_addScan, mem_addSubdomains]
  simp only [Finset.not_mem_empty, false_or]
  exact or_comm

/-- C10: only the literal protocol key "udp" is excluded: under any other
protocol string, port "80" yields the bare host entry and a policy port P
yields `host:P`, exactly as for TCP. -/
theorem claim10_nonudp_protocols (web_ports : Finset String) (ip_dict : IpDict)
    (subdomains : List String) (host proto : String) (pd : ProtocolDict)
    (ports : List String)
    (hhost : (host, pd) ∈ ip_dict) (hpd : (proto, ports) ∈ pd)
    (hproto : proto ≠ "udp") :
    ("80" ∈ ports → host ∈ gatherWebTargets web_ports ip_dict subdomains) ∧
    (∀ P, P ∈ ports → P ≠ "80" → P ∈ web_ports →
      host ++ ":" ++ P ∈ gatherWebTargets web_ports ip_dict subdomains) := by
  constructor
  · intro h80
    rw [mem_gatherWebTargets]
    exact Or.inl ⟨(host, pd), hhost, (proto, ports), hpd, "80", h80,
      hproto, Or.inl ⟨rfl, rfl⟩⟩
  · intro P hP hP80 hw
    rw [mem_gatherWebTargets]
    exact Or.inl ⟨(host, pd), hhost, (proto, ports), hpd, P, hP,
      hproto, Or.inr ⟨hP80, hw, rfl⟩⟩

/-- Witness for C10 with the non-TCP, non-UDP protocol "sctp". -/
theorem claim10_nonudp_protocols_witness :
    ("80" ∈ ["80", "8443"] →
      "h" ∈ gatherWebTargets {"8443"} [("h", [("sctp", ["80", "8443"])])] []) ∧
    (∀ P, P ∈ ["80", "8443"] → P ≠ "80" → P ∈ ({"8443"} : Finset String) →
      "h" ++ ":" ++ P ∈ gatherWebTargets {"8443"}
        [("h", [("sctp", ["80", "8443"])])] []) :=
  claim10_nonudp_protocols {"8443"} [("h", [("sctp", ["80", "8443"])])] []
    "h" "sctp" [("sctp", ["80", "8443"])] ["80", "8443"]
    (by decide) (by decide) (by decide)

end ReconPipeline
